import Mathlib

/-!
Verification of the streaming chat state machine of `src/chat/__init__.py`
(the `chat` package). We give a shallow embedding of the conversation data
model, the `finalize_streaming_result` and `perform_query` reactive effects,
and the throttled batch collector `task_main` inside `stream_to_reactive`,
together with its read accessor `getter`, and prove the spec's claims about
them.

External collaborators (the markdown renderers, the query preprocessor, the
tiktoken token counter, the wall clock) are taken as parameters: the code
calls them but does not define them.
-/

namespace Chat

/-- Message roles, as the `role` string field takes values
`"system" | "user" | "assistant"` in the source. -/
inductive Role where
  | system
  | user
  | assistant
deriving DecidableEq, Repr

/-- `ChatMessageEnriched` from `src/chat/__init__.py`: an `openai_api.ChatMessage`
(`role`, `content`) enriched with `content_preprocessed`, `content_html` and
`token_count`. -/
structure ChatMessageEnriched where
  role : Role
  content : String
  content_preprocessed : String
  content_html : String
  token_count : Nat
deriving DecidableEq, Repr

/-- `openai_api.ChatMessage`: just `role` and `content`. -/
structure ChatMessage where
  role : Role
  content : String
deriving DecidableEq, Repr

/-- The `delta` field of a streaming choice: an optional `content` string
(the code tests `"content" in message["choices"][0]["delta"]`). -/
structure Delta where
  content : Option String
deriving DecidableEq, Repr

/-- One element of the `choices` array of a streaming event, with its
`delta` and `finish_reason` fields. The code only ever reads
`message["choices"][0]`, so we embed that first choice. -/
structure Choice where
  delta : Delta
  finish_reason : Option String
deriving DecidableEq, Repr

/-- `openai_api.ChatCompletionStreaming`, restricted to the first element of
`choices`, which is the only part the code reads. -/
structure ChatCompletionStreaming where
  choice0 : Choice
deriving DecidableEq, Repr

/-- The reactive state touched by the two effects we verify:
`streaming_chat_string_pieces` (the Streaming Buffer) and
`session_messages` (the Conversation Log). Python tuples become lists. -/
structure ChatState where
  streaming_chat_string_pieces : List String
  session_messages : List ChatMessageEnriched
deriving DecidableEq, Repr

/-- `chat_message_enriched_to_chat_message`: project a `ChatMessageEnriched`
to `{"role": msg["role"], "content": msg["content"]}`. -/
def chat_message_enriched_to_chat_message (msg : ChatMessageEnriched) : ChatMessage :=
  { role := msg.role, content := msg.content }

/-- `chat_messages_enriched_to_chat_messages`: map the projection over a list. -/
def chat_messages_enriched_to_chat_messages
    (messages : List ChatMessageEnriched) : List ChatMessage :=
  messages.map chat_message_enriched_to_chat_message

/-- `system_prompt_message()`: builds the system message from the current
system prompt. `content_html` is `""` and the token count comes from the
external counter. -/
def system_prompt_message (system_prompt : String)
    (get_token_count : String → Nat) : ChatMessageEnriched :=
  { role := .system
    content_preprocessed := system_prompt
    content := system_prompt
    content_html := ""
    token_count := get_token_count system_prompt }

/-- The body of the `finalize_streaming_result` reactive effect, iterating over
`current_batch`. For each message: if the delta carries a `content` field,
append it to `streaming_chat_string_pieces`; then, if `finish_reason == "stop"`,
join the pieces into `current_message`, append an assistant
`ChatMessageEnriched` to `session_messages`, reset the pieces to empty and
`return` (remaining messages of the batch are not processed).
`output_renderer` and `get_token_count` are the external render/count
capabilities. -/
def finalize_streaming_result (output_renderer : String → String)
    (get_token_count : String → Nat) :
    ChatState → List ChatCompletionStreaming → ChatState
  | st, [] => st
  | st, message :: rest =>
    let st1 : ChatState :=
      match message.choice0.delta.content with
      | some c =>
        { st with streaming_chat_string_pieces := st.streaming_chat_string_pieces ++ [c] }
      | none => st
    if message.choice0.finish_reason = some "stop" then
      let current_message := String.join st1.streaming_chat_string_pieces
      let last_message : ChatMessageEnriched :=
        { content_preprocessed := current_message
          content := current_message
          role := .assistant
          content_html := output_renderer current_message
          token_count := get_token_count current_message }
      { st1 with
        session_messages := st1.session_messages ++ [last_message]
        streaming_chat_string_pieces := [] }
    else finalize_streaming_result output_renderer get_token_count st1 rest

/-- Result of one run of the `perform_query` effect: the updated reactive
state, whether the streaming task was launched (`stream_to_reactive` called),
and, when it was, the message list handed to
`openai.ChatCompletion.acreate(messages=...)`. -/
structure QueryResult where
  state : ChatState
  task_launched : Bool
  provider_messages : Option (List ChatMessage)
deriving DecidableEq, Repr

/-- The body of the `perform_query` reactive effect. If `input.query()` is the
empty string it returns immediately. Otherwise it preprocesses the query,
appends a user message to `session_messages`, sets the Streaming Buffer to the
one-element placeholder `("",)`, prepends the system prompt message, projects
the enriched messages to `{role, content}` and launches the provider task with
that list. -/
def perform_query (query_preprocessor input_renderer : String → String)
    (get_token_count : String → Nat) (system_prompt : String)
    (query : String) (st : ChatState) : QueryResult :=
  if query = "" then
    { state := st, task_launched := false, provider_messages := none }
  else
    let query_processed := query_preprocessor query
    let last_message : ChatMessageEnriched :=
      { content_preprocessed := query
        content := query_processed
        role := .user
        content_html := input_renderer query
        token_count := get_token_count query_processed }
    let st1 : ChatState :=
      { st with
        session_messages := st.session_messages ++ [last_message]
        streaming_chat_string_pieces := [""] }
    let session_messages_with_sys_prompt :=
      chat_messages_enriched_to_chat_messages
        (system_prompt_message system_prompt get_token_count :: st1.session_messages)
    { state := st1
      task_launched := true
      provider_messages := some session_messages_with_sys_prompt }

variable {T E : Type}

/-- A value held by the shared cell `val` inside `stream_to_reactive`: either a
tuple of items (a published batch) or the captured exception object. The cell
is declared `reactive.Value[tuple[T, ...] | Exception]`. -/
inductive CellVal (T E : Type) where
  | batch (b : List T)
  | err (e : E)
deriving DecidableEq, Repr

/-- Loop state of `task_main`: the wall-clock call counter (each `time.time()`
call consumes the next clock reading), `last_message_time`, the accumulator
`message_batch`, and the values published to the cell so far, in order. -/
structure LoopState (T E : Type) where
  clock_idx : Nat
  last_message_time : ℚ
  message_batch : List T
  published : List (CellVal T E)
deriving Repr

/-- One iteration of the `async for message in func` loop in `task_main`:
append `message` to `message_batch`; if `time.time() - last_message_time >
throttle`, publish the accumulator as a tuple (under the reactive lock,
followed by a flush), set `last_message_time = time.time()` (a second clock
read) and reset the accumulator. -/
def collect_step (throttle : ℚ) (clock : Nat → ℚ)
    (s : LoopState T E) (message : T) : LoopState T E :=
  let message_batch := s.message_batch ++ [message]
  if clock s.clock_idx - s.last_message_time > throttle then
    { clock_idx := s.clock_idx + 2
      last_message_time := clock (s.clock_idx + 1)
      message_batch := []
      published := s.published ++ [.batch message_batch] }
  else
    { s with clock_idx := s.clock_idx + 1, message_batch := message_batch }

/-- The body of `task_main` for an already-resolved async generator: `items`
are the elements the generator yields before terminating, and `streamError`
is the exception it raises after yielding them (`none` for normal
exhaustion). `last_message_time` is initialized to `time.time()` (clock read
0). After the loop, if the accumulator is non-empty it is flushed as one more
tuple, and if an error was caught it is published as the cell's final value.
The result is the sequence of values published to the cell, in order. -/
def task_main (throttle : ℚ) (clock : Nat → ℚ)
    (items : List T) (streamError : Option E) : List (CellVal T E) :=
  let final := items.foldl (collect_step throttle clock)
    { clock_idx := 1, last_message_time := clock 0
      message_batch := [], published := [] }
  let pubs :=
    if final.message_batch.length > 0 then
      final.published ++ [.batch final.message_batch]
    else final.published
  match streamError with
  | some e => pubs ++ [.err e]
  | none => pubs

/-- `getter` inside `stream_to_reactive`: read the cell; if the stored value
is an `Exception`, raise it, else return the tuple. `Except.error` models the
raise. -/
def getter (v : CellVal T E) : Except E (List T) :=
  match v with
  | .err e => .error e
  | .batch b => .ok b

/-- The body of the `copy_messages_to_batch` reactive effect inside
`perform_query`: `streaming_chat_messages_batch.set(messages())`, where
`messages()` is the `StreamResult.__call__` wrapper around `getter`. The
effect installs no exception handler (the source carries a
`TODO: messages() can raise an exception; handle it`), so its outcome is
exactly the getter's outcome: `.ok b` means the batch cell was set to `b`,
`.error e` means the effect raised `e` to its caller. -/
def copy_messages_to_batch (v : CellVal T E) : Except E (List T) :=
  getter v

/-- The batches among a published trace, in order; reading the trace as the
sequence of successful `copy_messages_to_batch` deliveries. -/
def trace_batches : List (CellVal T E) → List (List T)
  | [] => []
  | .batch b :: rest => b :: trace_batches rest
  | .err _ :: rest => trace_batches rest

/-- Consume a trace as the downstream reactive graph does: each published
tuple is (after the in-lock `reactive.flush()`) delivered to
`finalize_streaming_result` in publication order; a published error is not
delivered (reading it raises in `copy_messages_to_batch` instead). -/
def process_batches (output_renderer : String → String)
    (get_token_count : String → Nat)
    (st : ChatState) (batches : List (List ChatCompletionStreaming)) : ChatState :=
  batches.foldl (finalize_streaming_result output_renderer get_token_count) st

/-- A provider event carrying just a text delta (`delta.content` present, no
finish marker). -/
def deltaEvent (c : String) : ChatCompletionStreaming :=
  { choice0 := { delta := { content := some c }, finish_reason := none } }

/-- The terminal provider event: empty delta, `finish_reason = "stop"`. -/
def stopEvent : ChatCompletionStreaming :=
  { choice0 := { delta := { content := none }, finish_reason := some "stop" } }

/-- The assistant `ChatMessageEnriched` that `finalize_streaming_result`
constructs from a finalized content string (used to state theorems; it equals
the record literal built in the effect body). -/
def assistant_message (output_renderer : String → String)
    (get_token_count : String → Nat) (c : String) : ChatMessageEnriched :=
  { content_preprocessed := c
    content := c
    role := .assistant
    content_html := output_renderer c
    token_count := get_token_count c }

end Chat

namespace Chat

variable {T E : Type}

/-- C7: submitting the empty-string query is a silently dropped no-op: the
state (Log and Streaming Buffer) is unchanged, no provider task is launched,
and no message list is handed to the provider. -/
theorem empty_query_submit_noop (pp ir : String → String) (tc : String → Nat)
    (sp : String) (st : ChatState) :
    perform_query pp ir tc sp "" st =
      { state := st, task_launched := false, provider_messages := none } := by
  simp [perform_query]

/-- C10: any query other than the empty string — including whitespace-only
queries such as a single space — passes the submit guard: a user message
(whose `content` is the preprocessed query) is appended to the Log and the
provider task is launched. -/
theorem nonempty_query_proceeds (pp ir : String → String) (tc : String → Nat)
    (sp : String) (q : String) (st : ChatState) (h : q ≠ "") :
    (perform_query pp ir tc sp q st).task_launched = true ∧
    ∃ m : ChatMessageEnriched, m.role = .user ∧ m.content = pp q ∧
      (perform_query pp ir tc sp q st).state.session_messages =
        st.session_messages ++ [m] := by
  refine ⟨?_,
    ⟨{ content_preprocessed := q, content := pp q, role := .user,
       content_html := ir q, token_count := tc (pp q) }, rfl, rfl, ?_⟩⟩ <;>
    simp [perform_query, h]

/-- C10 witness: the whitespace-only query `" "` proceeds. -/
theorem nonempty_query_proceeds_witness :
    (perform_query id id String.length "sys" " "
      { streaming_chat_string_pieces := [], session_messages := [] }).task_launched = true ∧
    ∃ m : ChatMessageEnriched, m.role = .user ∧ m.content = id " " ∧
      (perform_query id id String.length "sys" " "
        { streaming_chat_string_pieces := [], session_messages := [] }).state.session_messages =
        ([] : List ChatMessageEnriched) ++ [m] :=
  nonempty_query_proceeds id id String.length "sys" " " _ (by decide)

/-- C9: for every non-empty submitted query, the provider is invoked with the
system-prompt message first, followed by all Log messages (including the
just-appended user message) in Log order, each projected to exactly the two
fields role and content. -/
theorem provider_receives_system_prefixed_history (pp ir : String → String)
    (tc : String → Nat) (sp : String) (q : String) (st : ChatState) (h : q ≠ "") :
    ∃ um : ChatMessageEnriched, um.role = .user ∧ um.content = pp q ∧
      (perform_query pp ir tc sp q st).state.session_messages =
        st.session_messages ++ [um] ∧
      (perform_query pp ir tc sp q st).provider_messages =
        some ({ role := .system, content := sp } ::
          (st.session_messages ++ [um]).map
            (fun m => { role := m.role, content := m.content })) := by
  refine ⟨{ content_preprocessed := q, content := pp q, role := .user,
            content_html := ir q, token_count := tc (pp q) }, rfl, rfl, ?_, ?_⟩ <;>
    simp [perform_query, h, chat_messages_enriched_to_chat_messages,
      chat_message_enriched_to_chat_message, system_prompt_message]

/-- C9 witness: concrete instantiation with query `"2+2"` over an empty Log. -/
theorem provider_receives_system_prefixed_history_witness :
    ∃ um : ChatMessageEnriched, um.role = .user ∧ um.content = id "2+2" ∧
      (perform_query id id String.length "sys" "2+2"
        { streaming_chat_string_pieces := [], session_messages := [] }).state.session_messages =
        ([] : List ChatMessageEnriched) ++ [um] ∧
      (perform_query id id String.length "sys" "2+2"
        { streaming_chat_string_pieces := [], session_messages := [] }).provider_messages =
        some ({ role := .system, content := "sys" } ::
          (([] : List ChatMessageEnriched) ++ [um]).map
            (fun m => { role := m.role, content := m.content })) :=
  provider_receives_system_prefixed_history id id String.length "sys" "2+2" _ (by decide)

/-- C2 counterexample: with the Streaming Buffer already empty and an empty
Log, delivering a batch holding a duplicate `finish_reason = "stop"` event is
not a no-op — the Log length changes from 0 to 1 (an assistant message with
empty content is appended), refuting the claim that it leaves the Log length
unchanged. -/
theorem finalize_empty_buffer_not_noop_cex :
    (finalize_streaming_result id String.length
      { streaming_chat_string_pieces := [], session_messages := [] }
      [stopEvent]).session_messages.length = 1 := by
  decide

/-- C2 amended: calling the finalize-streaming operation when the Streaming
Buffer is already empty on a duplicate `finish = "stop"` signal is not a
no-op: an assistant message with empty content is appended and the Log length
increases by one (the Buffer stays empty). -/
theorem finalize_empty_buffer_appends_empty_message
    (output_renderer : String → String) (get_token_count : String → Nat)
    (st : ChatState) (h : st.streaming_chat_string_pieces = []) :
    finalize_streaming_result output_renderer get_token_count st [stopEvent] =
      { streaming_chat_string_pieces := []
        session_messages := st.session_messages ++
          [assistant_message output_renderer get_token_count ""] } := by
  simp [finalize_streaming_result, stopEvent, assistant_message, h, String.join]

/-- C2 amended witness: concrete duplicate-stop finalize on an empty Buffer. -/
theorem finalize_empty_buffer_appends_empty_message_witness :
    finalize_streaming_result id String.length
      { streaming_chat_string_pieces := [], session_messages := [] } [stopEvent] =
      { streaming_chat_string_pieces := []
        session_messages := ([] : List ChatMessageEnriched) ++
          [assistant_message id String.length ""] } :=
  finalize_empty_buffer_appends_empty_message id String.length _ rfl

/-- Helper: `trace_batches` distributes over append. -/
theorem trace_batches_append (a b : List (CellVal T E)) :
    trace_batches (a ++ b) = trace_batches a ++ trace_batches b := by
  induction a with
  | nil => rfl
  | cons x xs ih => cases x <;> simp [trace_batches, ih]

/-- Helper: fold invariant of the collector loop — the items published so far
plus the pending accumulator always equal the initial published/pending
content followed by the items consumed. -/
theorem collect_step_foldl_invariant (throttle : ℚ) (clock : Nat → ℚ)
    (items : List T) (s : LoopState T E) :
    (trace_batches (items.foldl (collect_step throttle clock) s).published).flatten
      ++ (items.foldl (collect_step throttle clock) s).message_batch
    = (trace_batches s.published).flatten ++ s.message_batch ++ items := by
  induction items generalizing s with
  | nil => simp
  | cons m rest ih =>
    rw [List.foldl_cons, ih]
    unfold collect_step
    by_cases hc : clock s.clock_idx - s.last_message_time > throttle
    · simp [hc, trace_batches_append, trace_batches]
    · simp [hc]

/-- Helper: the collector never publishes an empty tuple during the loop. -/
theorem collect_step_foldl_batches_ne_nil (throttle : ℚ) (clock : Nat → ℚ)
    (items : List T) (s : LoopState T E)
    (h : ∀ b ∈ trace_batches s.published, b ≠ []) :
    ∀ b ∈ trace_batches (items.foldl (collect_step throttle clock) s).published,
      b ≠ [] := by
  induction items generalizing s with
  | nil => exact h
  | cons m rest ih =>
    rw [List.foldl_cons]
    apply ih
    unfold collect_step
    by_cases hc : clock s.clock_idx - s.last_message_time > throttle
    · simp only [hc, if_pos, trace_batches_append]
      intro b hb
      rcases List.mem_append.mp hb with hb1 | hb2
      · exact h b hb1
      · simp only [trace_batches, List.mem_singleton] at hb2
        simp [hb2]
    · simpa [hc] using h

/-- Helper: a stream error only appends the error value after the tuples the
run would have published anyway. -/
theorem task_main_some_eq (throttle : ℚ) (clock : Nat → ℚ) (items : List T) (e : E) :
    task_main throttle clock items (some e) =
      task_main (E := E) throttle clock items none ++ [.err e] := rfl

/-- Helper: the concatenation of the tuples published by one collector run is
exactly the input item sequence, whether or not the stream ended in an error. -/
theorem task_main_batches_flatten (throttle : ℚ) (clock : Nat → ℚ)
    (items : List T) (errOpt : Option E) :
    (trace_batches (task_main throttle clock items errOpt)).flatten = items := by
  have hmain :
      (trace_batches (task_main (E := E) throttle clock items none)).flatten = items := by
    have hinv := collect_step_foldl_invariant throttle clock items
      { clock_idx := 1, last_message_time := clock 0
        message_batch := [], published := ([] : List (CellVal T E)) }
    simp only [trace_batches, List.flatten_nil, List.nil_append, List.append_nil] at hinv
    unfold task_main
    dsimp only
    split
    · rw [trace_batches_append]
      simp only [trace_batches, List.flatten_append, List.flatten_cons, List.flatten_nil,
        List.append_nil]
      exact hinv
    · rename_i hlen
      have hmb := List.eq_nil_of_length_eq_zero (Nat.eq_zero_of_not_pos hlen)
      rw [hmb, List.append_nil] at hinv
      exact hinv
  cases errOpt with
  | none => exact hmain
  | some e =>
    rw [task_main_some_eq, trace_batches_append]
    simpa [trace_batches] using hmain

/-- Helper: every tuple a collector run publishes is non-empty. -/
theorem task_main_batches_ne_nil (throttle : ℚ) (clock : Nat → ℚ)
    (items : List T) (errOpt : Option E) :
    ∀ b ∈ trace_batches (task_main throttle clock items errOpt), b ≠ [] := by
  have hmain :
      ∀ b ∈ trace_batches (task_main (E := E) throttle clock items none), b ≠ [] := by
    unfold task_main
    dsimp only
    split
    · rename_i hlen
      rw [trace_batches_append]
      intro b hb
      rcases List.mem_append.mp hb with hb1 | hb2
      · exact collect_step_foldl_batches_ne_nil throttle clock items _
          (fun b hb => by simp [trace_batches] at hb) b hb1
      · simp only [trace_batches, List.mem_singleton] at hb2
        subst hb2
        exact List.length_pos.mp hlen
    · exact collect_step_foldl_batches_ne_nil throttle clock items _
        (fun b hb => by simp [trace_batches] at hb)
  cases errOpt with
  | none => exact hmain
  | some e =>
    rw [task_main_some_eq, trace_batches_append]
    simpa [trace_batches] using hmain

/-- C6: the Throttled Batch Collector publishes the accumulator as a tuple and
resets it exactly when now - lastFlush exceeds the throttle (the step is that
conditional, literally); on normal exhaustion it performs one final publish
exactly of a non-empty accumulator, and consequently every item of the input
sequence appears in exactly one published tuple: the published tuples are all
non-empty and their concatenation in publication order equals the input
sequence, so no item is omitted from the eventual final snapshot. -/
theorem collector_partitions_and_flush_policy (throttle : ℚ) (clock : Nat → ℚ)
    (items : List T) :
    (trace_batches (task_main (E := E) throttle clock items none)).flatten = items ∧
    (∀ b ∈ trace_batches (task_main (E := E) throttle clock items none), b ≠ []) ∧
    ∀ (s : LoopState T E) (m : T),
      collect_step throttle clock s m =
        if clock s.clock_idx - s.last_message_time > throttle then
          { clock_idx := s.clock_idx + 2
            last_message_time := clock (s.clock_idx + 1)
            message_batch := []
            published := s.published ++ [.batch (s.message_batch ++ [m])] }
        else
          { s with clock_idx := s.clock_idx + 1
                   message_batch := s.message_batch ++ [m] } :=
  ⟨task_main_batches_flatten throttle clock items none,
   task_main_batches_ne_nil throttle clock items none,
   fun _ _ => rfl⟩

/-- Helper: joining strings after a leading empty string gives the same
result — the placeholder contributes nothing to the concatenation. -/
theorem string_join_empty_cons (ds : List String) :
    String.join ("" :: ds) = String.join ds := by
  show ds.foldl (fun r s => r ++ s) ("" ++ "") = ds.foldl (fun r s => r ++ s) ""
  rfl

/-- Helper: a run of pure delta events at the front of a batch appends their
contents to the Streaming Buffer, in order, and processing continues. -/
theorem finalize_delta_run (output_renderer : String → String)
    (get_token_count : String → Nat) (ds : List String)
    (rest : List ChatCompletionStreaming) (st : ChatState) :
    finalize_streaming_result output_renderer get_token_count st
      (ds.map deltaEvent ++ rest) =
    finalize_streaming_result output_renderer get_token_count
      { st with streaming_chat_string_pieces := st.streaming_chat_string_pieces ++ ds }
      rest := by
  induction ds generalizing st with
  | nil => simp
  | cons d ds ih =>
    simp only [List.map_cons, List.cons_append, finalize_streaming_result, deltaEvent,
      reduceCtorEq, if_false, List.append_eq]
    rw [ih]
    simp [List.append_assoc]

/-- Helper: a batch consisting of a single stop event finalizes the Buffer
into an assistant message and resets the Buffer. -/
theorem finalize_stop_event (output_renderer : String → String)
    (get_token_count : String → Nat) (st : ChatState) :
    finalize_streaming_result output_renderer get_token_count st [stopEvent] =
      { streaming_chat_string_pieces := []
        session_messages := st.session_messages ++
          [assistant_message output_renderer get_token_count
            (String.join st.streaming_chat_string_pieces)] } := by
  simp [finalize_streaming_result, stopEvent, assistant_message]

/-- Helper: a decomposition of `b ++ J = D ++ [s]` — either `J` is empty and
`b` is the whole right-hand side, or the terminal element `s` lies in `J`. -/
theorem append_eq_concat_split {α : Type} (b J D : List α) (s : α)
    (h : b ++ J = D ++ [s]) :
    (J = [] ∧ b = D ++ [s]) ∨ ∃ D2, D = b ++ D2 ∧ J = D2 ++ [s] := by
  rcases List.eq_nil_or_concat J with rfl | ⟨J2, a, rfl⟩
  · exact Or.inl ⟨rfl, by simpa using h⟩
  · right
    rw [List.concat_eq_append, ← List.append_assoc] at h
    have h2 := List.append_inj' h rfl
    have ha : a = s := by simpa using h2.2
    exact ⟨J2, h2.1.symm, by rw [ha]; exact List.concat_eq_append _ _⟩

/-- Helper: unfolding equation of `process_batches` on a cons. -/
theorem process_batches_cons (output_renderer : String → String)
    (get_token_count : String → Nat) (st : ChatState)
    (b : List ChatCompletionStreaming) (rest : List (List ChatCompletionStreaming)) :
    process_batches output_renderer get_token_count st (b :: rest) =
      process_batches output_renderer get_token_count
        (finalize_streaming_result output_renderer get_token_count st b) rest := rfl

/-- Helper: batches that flatten to nothing are all empty and processing them
changes no state. -/
theorem process_batches_flatten_nil (output_renderer : String → String)
    (get_token_count : String → Nat) (bs : List (List ChatCompletionStreaming))
    (st : ChatState) (h : bs.flatten = []) :
    process_batches output_renderer get_token_count st bs = st := by
  induction bs generalizing st with
  | nil => rfl
  | cons b rest ih =>
    rw [List.flatten_cons, List.append_eq_nil] at h
    rw [process_batches_cons, h.1]
    exact ih _ h.2

/-- Helper: batches that flatten to a run of pure delta events only extend the
Streaming Buffer with the delta contents, in emission order; the Log is
untouched. -/
theorem process_batches_delta_run (output_renderer : String → String)
    (get_token_count : String → Nat) (bs : List (List ChatCompletionStreaming))
    (ds : List String) (st : ChatState) (h : bs.flatten = ds.map deltaEvent) :
    process_batches output_renderer get_token_count st bs =
      { st with streaming_chat_string_pieces :=
          st.streaming_chat_string_pieces ++ ds } := by
  induction bs generalizing ds st with
  | nil =>
    have hds : ds = [] := by
      rw [List.flatten_nil] at h
      exact (List.map_eq_nil_iff.mp h.symm)
    subst hds
    simp [process_batches]
  | cons b rest ih =>
    rw [List.flatten_cons] at h
    rcases List.append_eq_map_iff.mp h with ⟨ds1, ds2, rfl, hb, hrest⟩
    rw [process_batches_cons]
    have hb2 : finalize_streaming_result output_renderer get_token_count st b =
        { st with streaming_chat_string_pieces :=
            st.streaming_chat_string_pieces ++ ds1 } := by
      have := finalize_delta_run output_renderer get_token_count ds1 [] st
      rw [hb] at this
      simpa [finalize_streaming_result] using this
    rw [hb2, ih ds2 _ hrest.symm]
    simp [List.append_assoc]

/-- Helper: processing any batching of a full emission — delta events carrying
`ds`, then the terminal stop event — finalizes one assistant message holding
the join of the Buffer contents and the deltas, and empties the Buffer. -/
theorem process_batches_emission (output_renderer : String → String)
    (get_token_count : String → Nat) (bs : List (List ChatCompletionStreaming))
    (ds : List String) (st : ChatState)
    (h : bs.flatten = ds.map deltaEvent ++ [stopEvent]) :
    process_batches output_renderer get_token_count st bs =
      { streaming_chat_string_pieces := []
        session_messages := st.session_messages ++
          [assistant_message output_renderer get_token_count
            (String.join (st.streaming_chat_string_pieces ++ ds))] } := by
  induction bs generalizing ds st with
  | nil =>
    exfalso
    rw [List.flatten_nil] at h
    exact List.append_ne_nil_of_right_ne_nil _ (by simp) h.symm
  | cons b rest ih =>
    rw [List.flatten_cons] at h
    rcases append_eq_concat_split b rest.flatten (ds.map deltaEvent) stopEvent h with
      ⟨hrest, hb⟩ | ⟨D2, hD, hrest⟩
    · rw [process_batches_cons, hb, finalize_delta_run, finalize_stop_event]
      exact process_batches_flatten_nil output_renderer get_token_count rest _ hrest
    · rcases List.append_eq_map_iff.mp hD.symm with ⟨ds1, ds2, rfl, hb, hD2⟩
      rw [process_batches_cons]
      have hb2 : finalize_streaming_result output_renderer get_token_count st b =
          { st with streaming_chat_string_pieces :=
              st.streaming_chat_string_pieces ++ ds1 } := by
        have := finalize_delta_run output_renderer get_token_count ds1 [] st
        rw [hb] at this
        simpa [finalize_streaming_result] using this
      rw [hb2, ih ds2 _ (by rw [hrest, hD2])]
      simp [List.append_assoc]

/-- C1: for every emission of delta fragments terminated by the stop marker,
delivered across arbitrarily many batches (any `bs` whose concatenation is
that emission) and hence for any throttle value, processing the batches from
the streaming placeholder state finalizes exactly one assistant message whose
content is the concatenation of the fragments in emission order — no fragment
dropped or reordered, the empty-string placeholder contributing nothing — and
empties the Streaming Buffer. -/
theorem finalized_content_is_delta_concat (output_renderer : String → String)
    (get_token_count : String → Nat) (L : List ChatMessageEnriched)
    (ds : List String) (bs : List (List ChatCompletionStreaming))
    (h : bs.flatten = ds.map deltaEvent ++ [stopEvent]) :
    ∃ m : ChatMessageEnriched, m.role = .assistant ∧ m.content = String.join ds ∧
      process_batches output_renderer get_token_count
        { streaming_chat_string_pieces := [""], session_messages := L } bs =
        { streaming_chat_string_pieces := [], session_messages := L ++ [m] } ∧
      ∀ (E2 : Type) (throttle : ℚ) (clock : Nat → ℚ),
        process_batches output_renderer get_token_count
          { streaming_chat_string_pieces := [""], session_messages := L }
          (trace_batches (task_main (E := E2) throttle clock
            (ds.map deltaEvent ++ [stopEvent]) none)) =
          { streaming_chat_string_pieces := [], session_messages := L ++ [m] } := by
  have key : ∀ bs2 : List (List ChatCompletionStreaming),
      bs2.flatten = ds.map deltaEvent ++ [stopEvent] →
      process_batches output_renderer get_token_count
        { streaming_chat_string_pieces := [""], session_messages := L } bs2 =
        { streaming_chat_string_pieces := []
          session_messages := L ++
            [assistant_message output_renderer get_token_count (String.join ds)] } := by
    intro bs2 h2
    have hpe := process_batches_emission output_renderer get_token_count bs2 ds
      { streaming_chat_string_pieces := [""], session_messages := L } h2
    simp only [List.singleton_append] at hpe
    rw [hpe, string_join_empty_cons]
  exact ⟨assistant_message output_renderer get_token_count (String.join ds),
    rfl, rfl, key bs h,
    fun E2 throttle clock => key _ (task_main_batches_flatten throttle clock _ _)⟩

/-- C1 witness: the spec scenario — two batches carrying `"The answer"` and
`" is 4."` followed by the stop marker finalize `"The answer is 4."`. -/
theorem finalized_content_is_delta_concat_witness :
    ∃ m : ChatMessageEnriched, m.role = .assistant ∧
      m.content = String.join ["The answer", " is 4."] ∧
      process_batches id String.length
        { streaming_chat_string_pieces := [""], session_messages := [] }
        [[deltaEvent "The answer"], [deltaEvent " is 4.", stopEvent]] =
        { streaming_chat_string_pieces := []
          session_messages := ([] : List ChatMessageEnriched) ++ [m] } ∧
      ∀ (E2 : Type) (throttle : ℚ) (clock : Nat → ℚ),
        process_batches id String.length
          { streaming_chat_string_pieces := [""], session_messages := [] }
          (trace_batches (task_main (E := E2) throttle clock
            ((["The answer", " is 4."].map deltaEvent) ++ [stopEvent]) none)) =
          { streaming_chat_string_pieces := []
            session_messages := ([] : List ChatMessageEnriched) ++ [m] } :=
  finalized_content_is_delta_concat id String.length [] ["The answer", " is 4."]
    [[deltaEvent "The answer"], [deltaEvent " is 4.", stopEvent]] rfl

/-- C5: if the provider sequence raises `e` after emitting the fragments `ds`,
every fragment emitted before the failure is published in a tuple of the run
(their concatenation over the published tuples is exactly the emitted
sequence), the error value is the run's last published value, consuming the
published tuples leaves the Streaming Buffer holding all fragments appended
in order with the Log unchanged, and reading the stored error raises it. -/
theorem fragments_published_before_error (output_renderer : String → String)
    (get_token_count : String → Nat) (throttle : ℚ) (clock : Nat → ℚ)
    (ds : List String) (e : E) (st : ChatState) :
    (trace_batches (task_main throttle clock (ds.map deltaEvent) (some e))).flatten =
      ds.map deltaEvent ∧
    (task_main throttle clock (ds.map deltaEvent) (some e)).getLast? =
      some (.err e) ∧
    process_batches output_renderer get_token_count st
      (trace_batches (task_main throttle clock (ds.map deltaEvent) (some e))) =
      { st with streaming_chat_string_pieces :=
          st.streaming_chat_string_pieces ++ ds } ∧
    getter (CellVal.err (T := ChatCompletionStreaming) e) = Except.error e := by
  refine ⟨task_main_batches_flatten throttle clock _ _, ?_, ?_, rfl⟩
  · rw [task_main_some_eq]
    exact List.getLast?_concat _
  · exact process_batches_delta_run output_renderer get_token_count _ ds st
      (task_main_batches_flatten throttle clock _ _)

/-- Helper: one `finalize_streaming_result` pass over any batch either leaves
the Log unchanged or appends exactly one message at its end. -/
theorem finalize_log_extends (output_renderer : String → String)
    (get_token_count : String → Nat) (st : ChatState)
    (batch : List ChatCompletionStreaming) :
    (finalize_streaming_result output_renderer get_token_count st batch).session_messages =
        st.session_messages ∨
    ∃ m, (finalize_streaming_result output_renderer get_token_count st
        batch).session_messages = st.session_messages ++ [m] := by
  induction batch generalizing st with
  | nil => exact Or.inl rfl
  | cons message rest ih =>
    simp only [finalize_streaming_result]
    cases hoc : message.choice0.delta.content with
    | none =>
      simp only [hoc]
      split
      · exact Or.inr ⟨_, rfl⟩
      · exact ih st
    | some c =>
      simp only [hoc]
      split
      · exact Or.inr ⟨_, rfl⟩
      · rcases ih { st with streaming_chat_string_pieces :=
            st.streaming_chat_string_pieces ++ [c] } with h1 | ⟨m, h2⟩
        · exact Or.inl h1
        · exact Or.inr ⟨m, h2⟩

/-- C8: the Conversation Log is append-only — each of the two operations that
touch it (a finalize-streaming pass over a batch, a query submission) either
leaves the Log unchanged or replaces it by the old Log plus exactly one
appended message, so messages already in the Log are never modified or
deleted. -/
theorem log_append_only (output_renderer pp ir : String → String)
    (get_token_count : String → Nat) (sp : String) :
    (∀ (st : ChatState) (batch : List ChatCompletionStreaming),
      (finalize_streaming_result output_renderer get_token_count st
          batch).session_messages = st.session_messages ∨
      ∃ m, (finalize_streaming_result output_renderer get_token_count st
          batch).session_messages = st.session_messages ++ [m]) ∧
    (∀ (q : String) (st : ChatState),
      (perform_query pp ir get_token_count sp q st).state.session_messages =
          st.session_messages ∨
      ∃ m, (perform_query pp ir get_token_count sp q st).state.session_messages =
          st.session_messages ++ [m]) := by
  constructor
  · exact fun st batch => finalize_log_extends output_renderer get_token_count st batch
  · intro q st
    by_cases hq : q = ""
    · exact Or.inl (by simp [perform_query, hq])
    · refine Or.inr ⟨?_, ?_⟩
      · exact { content_preprocessed := q, content := pp q, role := .user,
                content_html := ir q, token_count := get_token_count (pp q) }
      · simp [perform_query, hq]

/-- C3: reading the stream accessor when the shared cell holds a provider
exception re-raises that exception out of the `copy_messages_to_batch`
reactive effect — the orchestrator installs no handler (the source carries a
TODO admitting this), so the error propagates uncaught rather than being
surfaced as an Errored state. -/
theorem accessor_error_escapes_orchestrator (T E : Type) (e : E) :
    copy_messages_to_batch (CellVal.err (T := T) e) = Except.error e := rfl

/-- C4: when the source sequence fails with `e` after yielding `items`, the
error object itself is the last value published to the shared cell (replacing
the tuple type), and reading the accessor on that stored value raises `e` to
the caller instead of returning data. -/
theorem stream_error_replaces_cell_and_read_raises
    (throttle : ℚ) (clock : Nat → ℚ) (items : List T) (e : E) :
    (task_main throttle clock items (some e)).getLast? = some (.err e) ∧
    getter (CellVal.err (T := T) e) = Except.error e := by
  constructor
  · show (_ ++ [CellVal.err e]).getLast? = some (CellVal.err e)
    exact List.getLast?_concat _
  · rfl

end Chat
